import Mathlib

/-!
Verification of the Raspberry Pi ceiling-sculpture controller
(`raspberry-pi/controller.py`).

The controller's pure logic is shallowly embedded here:

* wire text is modelled as `List Char` (Python strings, read or built one
  character at a time);
* byte streams arriving from a serial port are modelled as `List Nat`
  (byte values; the source compares `ord(c)` against the marker constants);
* position grids are modelled as `List (List Int)` (the source reads CSV
  cells as strings and immediately converts each cell with `int(...)`);
* a device entry of `serial_ports` is modelled by the pair
  `(arrayIndex, motorCount)` that the handshake stores in slots 2 and 3.

Fallible operations return `Option`/`Except`; an operation that would make
the Python program block forever on an exhausted input is modelled as
`none`, a `blocked` value or a timeout error, and an uncaught Python
exception (such as the `UnicodeDecodeError` of the per-byte frame decode)
as its own error value.
-/

/-! ## Global constants (bottom of `controller.py`) -/

def BAUD_RATE : Nat := 9600
def START_MARKER : Nat := 60
def END_MARKER : Nat := 62
def MAX_TURNS : Nat := 10
def MAX_NUMBER_OF_ARRAYS : Nat := 4
def MAX_NUMBER_OF_MOTORS : Nat := 10

/-! ## Decimal rendering (Python `str(n)` for a non-negative integer) -/

/-- The decimal digit character for `n % 10`. -/
def digitChar : Nat → Char
  | 0 => '0' | 1 => '1' | 2 => '2' | 3 => '3' | 4 => '4'
  | 5 => '5' | 6 => '6' | 7 => '7' | 8 => '8' | _ => '9'

/-- Fuel-driven decimal rendering; `fuel > n` suffices. -/
def natCharsCore : Nat → Nat → List Char
  | 0, _ => []
  | fuel + 1, n =>
    if n < 10 then [digitChar n]
    else natCharsCore fuel (n / 10) ++ [digitChar (n % 10)]

/-- `natChars n` is the decimal rendering of `n`, i.e. Python's `str(n)`. -/
def natChars (n : Nat) : List Char := natCharsCore (n + 1) n

/-! ## The command-diff engine (`commands_from_csv`, lines 147-192) -/

/-- The three direction words that `commands_from_csv` can emit. -/
inductive Direction
  | Up
  | Down
  | None
deriving DecidableEq

/-- The branch on `difference` at lines 175-180 of `controller.py`. -/
def direction_of (difference : Int) : Direction :=
  if difference < 0 then .Down
  else if difference > 0 then .Up
  else .None

/-- The text of each direction word as appended by the source. -/
def direction_chars : Direction → List Char
  | .Up => 'U' :: 'p' :: []
  | .Down => 'D' :: 'o' :: 'w' :: 'n' :: []
  | .None => 'N' :: 'o' :: 'n' :: 'e' :: []

/-- The per-slot instructions one device receives: the loop
`for count_column, _ in enumerate(desired_row)` filtered by
`count_column < serial_ports[count_row][3]`, each iteration computing
`difference = int(current_row[c]) - int(desired_row[c])` and recording the
direction branch together with `abs(difference)`. -/
def device_instructions (desired_row current_row : List Int)
    (motorCount : Nat) : List (Direction × Nat) :=
  (List.range desired_row.length).filterMap fun count_column =>
    if count_column < motorCount then
      let difference := current_row.getD count_column 0
        - desired_row.getD count_column 0
      some (direction_of difference, difference.natAbs)
    else none

/-- One loop iteration's appended text: the direction word with a comma,
then `str(abs(difference))` with a comma. -/
def instruction_chars (ins : Direction × Nat) : List Char :=
  direction_chars ins.1 ++ ',' :: (natChars ins.2 ++ [','])

/-- `commands_from_csv`'s command string (lines 162-187): per device,
append `"<"`, append the per-slot pieces, strip the final comma with
`command_string[:-1]`, append `">;"`; at the end strip the final `";"`.
Grid rows are fetched by `desired_state_list[serial_ports[count_row][2]]`. -/
def commands_from_csv (desired_state_list current_state_list : List (List Int))
    (serial_ports : List (Nat × Nat)) : List Char :=
  (serial_ports.foldl (fun command_string p =>
    let desired_row := desired_state_list.getD p.1 []
    let current_row := current_state_list.getD p.1 []
    let inner := ((device_instructions desired_row current_row p.2).map
      instruction_chars).flatten
    (command_string ++ '<' :: inner).dropLast ++ ('>' :: ';' :: [])) []).dropLast

/-- The single-device segment of the command string: `"<"` plus the
per-slot pieces, last comma stripped, then `">"`. -/
def device_body (desired_row current_row : List Int) (motorCount : Nat) :
    List Char :=
  ('<' :: ((device_instructions desired_row current_row motorCount).map
    instruction_chars).flatten).dropLast ++ ['>']

/-! ## The reset path (`commands_from_reset`, lines 194-217) -/

/-- The zero grid written to `current-state.csv` by `commands_from_reset`:
`[["0" for x in range(MAX_NUMBER_OF_ARRAYS)] for y in range(MAX_NUMBER_OF_MOTORS)]`
— note the outer comprehension ranges over `MAX_NUMBER_OF_MOTORS`. -/
def current_state_list_zero : List (List String) :=
  List.replicate MAX_NUMBER_OF_MOTORS (List.replicate MAX_NUMBER_OF_ARRAYS "0")

/-- `commands_from_reset`'s command string (lines 205-214): per device,
append `"<"`, append `"Up,100,"` once per motor, strip the final comma,
append `">;"`; at the end strip the final `";"`. -/
def commands_from_reset (serial_ports : List (Nat × Nat)) : List Char :=
  (serial_ports.foldl (fun command_string p =>
    let inner := (List.replicate p.2
      ('U' :: 'p' :: ',' :: '1' :: '0' :: '0' :: ',' :: [])).flatten
    (command_string ++ '<' :: inner).dropLast ++ ('>' :: ';' :: [])) []).dropLast

/-! ## The orchestrator's dispatch loop (`execute_commands`, lines 220-236) -/

/-- Python `command_string_execute.split(";")`: keeps empty pieces and, on an
empty string, yields the one-element list `[[]]`. -/
def splitSemi : List Char → List (List Char)
  | [] => [[]]
  | c :: rest =>
    if c = ';' then [] :: splitSemi rest
    else
      match splitSemi rest with
      | t :: ts => (c :: t) :: ts
      | [] => [[c]]

/-- The spawn phase of `execute_commands`: `parse_text` is the `";"`-split of
the command text, `threads` is pre-sized to `len(serial_ports)`, and the loop
creates one thread per element of `parse_text` with arguments
`(parse_text[count], count)`.  When `parse_text` outruns `serial_ports`, the
assignment `threads[count] = ...` raises `IndexError` at
`count = len(serial_ports)`, after the first `len(serial_ports)` workers were
already started. -/
def execute_commands (serial_ports_length : Nat) (command_string_execute : List Char) :
    Except Unit (List (Nat × List Char)) :=
  let parse_text := splitSemi command_string_execute
  if serial_ports_length < parse_text.length then .error ()
  else .ok parse_text.enum

/-! ## The framed channel (`recieve_from_arduino`, lines 360-377)

Every byte read at lines 365, 369 and 375 is immediately decoded with
`recieve_char.decode("utf-8")` (lines 366, 370, 376) before `ord` compares
it against the markers.  A single byte in `0x80 .. 0xFF` is never a complete
UTF-8 sequence, so it raises an uncaught `UnicodeDecodeError` wherever it
occurs in the stream; a byte below `0x80` decodes to the character with the
same code point. -/

/-- How a call to `recieve_from_arduino` can fail to return a frame: the
`read()` on an exhausted stream blocks forever, and a byte `>= 0x80` raises
`UnicodeDecodeError` out of the per-byte `.decode("utf-8")`. -/
inductive FrameError
  | blocked
  | decodeError
deriving DecidableEq

/-- The first `while` loop: read and decode characters until one equals
`START_MARKER`; the result is that marker character together with the
remaining stream. -/
def recieve_skip : List Nat → Except FrameError (Nat × List Nat)
  | [] => .error .blocked
  | b :: rest =>
    if b < 128 then
      if b = START_MARKER then .ok (b, rest) else recieve_skip rest
    else .error .decodeError

/-- The second `while` loop, with `recieve_char` the character just decoded:
stop at `END_MARKER` without reading further; otherwise append the character
unless it is a `START_MARKER`, then read and decode the next byte. -/
def frameBody : List Nat → Nat → List Nat → Except FrameError (List Nat)
  | recieve_string, recieve_char, [] =>
    if recieve_char = END_MARKER then .ok recieve_string
    else .error .blocked
  | recieve_string, recieve_char, b :: rest =>
    if recieve_char = END_MARKER then .ok recieve_string
    else if b < 128 then
      frameBody (if recieve_char = START_MARKER then recieve_string
        else recieve_string ++ [recieve_char]) b rest
    else .error .decodeError

/-- `recieve_from_arduino`: skip to the first start marker, then accumulate
the frame body starting from that marker character. -/
def recieve_from_arduino (stream : List Nat) : Except FrameError (List Nat) :=
  match recieve_skip stream with
  | .error e => .error e
  | .ok (recieve_char, rest) => frameBody [] recieve_char rest

/-! ## The handshake (`wait_for_arduino_connection[_execute]`, lines 307-357)

The payload a handshake step examines is exactly what `recieve_from_arduino`
returned, so it is modelled as the same `List Nat` of byte values (the
payloads are ASCII). -/

/-- An ASCII decimal digit — Python's per-character `str.isdigit()` on the
ASCII payloads the Arduino sends. -/
def isDigitByte (b : Nat) : Bool := 48 ≤ b && b ≤ 57

/-- The ASCII whitespace recognised by Python's `str.split()`:
space, tab, newline, vertical tab, form feed, carriage return. -/
def isSpaceByte (b : Nat) : Bool :=
  b = 32 || b = 9 || b = 10 || b = 11 || b = 12 || b = 13

/-- A byte that is neither a decimal digit nor whitespace. -/
def isOtherByte (b : Nat) : Bool := !isDigitByte b && !isSpaceByte b

/-- Python `str.split()` (no argument): split on runs of whitespace,
discarding empty pieces.  The accumulator holds the current token reversed. -/
def pySplitAux : List Nat → List Nat → List (List Nat)
  | [], acc => if acc = [] then [] else [acc.reverse]
  | c :: rest, acc =>
    if isSpaceByte c then
      if acc = [] then pySplitAux rest []
      else acc.reverse :: pySplitAux rest []
    else pySplitAux rest (c :: acc)

def pySplit (s : List Nat) : List (List Nat) := pySplitAux s []

/-- A token satisfying Python's `str.isdigit()`: nonempty and all digits. -/
def pyTokenIsDigit (t : List Nat) : Bool := !t.isEmpty && t.all isDigitByte

/-- The digit-string-to-integer conversion `int(t)` for an all-digit token. -/
def parseNat (t : List Nat) : Nat := t.foldl (fun n c => 10 * n + (c - 48)) 0

/-- Line 356: `array_info = [int(i) for i in msg.split() if i.isdigit()]`. -/
def extract_ints (msg : List Nat) : List Nat :=
  ((pySplit msg).filter pyTokenIsDigit).map parseNat

/-- The maximal runs of decimal digits in a string, in order of appearance.
The accumulator holds the current run reversed. -/
def digitRunsAux : List Nat → List Nat → List (List Nat)
  | [], acc => if acc = [] then [] else [acc.reverse]
  | c :: rest, acc =>
    if isDigitByte c then digitRunsAux rest (c :: acc)
    else if acc = [] then digitRunsAux rest []
    else acc.reverse :: digitRunsAux rest []

def digitRuns (s : List Nat) : List (List Nat) := digitRunsAux s []

/-- Modelled from the spec ("extract every maximal run of decimal digits in
the payload, in order of appearance, as an ordered sequence of integers"),
for comparison with the source's `extract_ints`. -/
def spec_extract_ints (msg : List Nat) : List Nat :=
  (digitRuns msg).map parseNat

/-- Payloads in which no decimal digit is adjacent to a non-digit,
non-whitespace byte, i.e. every maximal digit run is a whole
whitespace-delimited token. -/
def sepOK : List Nat → Bool
  | [] => true
  | _ :: [] => true
  | a :: b :: rest =>
    !(isDigitByte a && isOtherByte b) && !(isOtherByte a && isDigitByte b)
      && sepOK (b :: rest)

/-- The readiness sentinel searched for at line 351, as ASCII bytes. -/
def readySentinel : List Nat := "Arduino is ready".toList.map Char.toNat

/-- Whether `pat` occurs at the very front of a string. -/
def matchesAt (pat s : List Nat) : Bool :=
  match pat, s with
  | [], _ => true
  | _ :: _, [] => false
  | p :: ps, c :: cs => p = c && matchesAt ps cs

/-- Python `msg.find(pat) != -1`: whether `pat` occurs anywhere in `msg`. -/
def containsSeq (pat : List Nat) : List Nat → Bool
  | [] => pat.isEmpty
  | c :: rest => matchesAt pat (c :: rest) || containsSeq pat rest

/-- How one handshake attempt can fail: the 10-second
`timeout_decorator.TimeoutError`, or the `IndexError` raised when
`array_info` has fewer than two entries (reported as
"NEGATIVE ARRAY NUMBER OR MOTOR NUMBER PASSED"). -/
inductive ConnectError
  | timeout
  | invalidIdentity
deriving DecidableEq

/-- The sentinel loop of `wait_for_arduino_connection_execute`: keep reading
frames until one contains `"Arduino is ready"`.  If no frame ever does, the
loop spins until the timeout decorator fires. -/
def findReadyMsg : List (List Nat) → Option (List Nat)
  | [] => none
  | msg :: rest =>
    if containsSeq readySentinel msg then some msg else findReadyMsg rest

/-- `wait_for_arduino_connection` over the sequence of frame payloads a port
delivers: find the sentinel frame, extract the digit tokens, and store
`array_info[0]` (array number) and `array_info[1]` (motor count); fewer than
two entries raises `IndexError`, caught separately from the timeout. -/
def wait_for_arduino_connection (frames : List (List Nat)) :
    Except ConnectError (Nat × Nat) :=
  match findReadyMsg frames with
  | none => .error .timeout
  | some msg =>
    match extract_ints msg with
    | array_number :: number_of_motors :: _ => .ok (array_number, number_of_motors)
    | _ => .error .invalidIdentity

/-! ## The session registry check (`lint_serial_port_values`, lines 115-144) -/

/-- The three failures `lint_serial_port_values` can raise, in the order the
source checks them. -/
inductive LintError
  | duplicates
  | arrayRange
  | motorRange
deriving DecidableEq

/-- `lint_serial_port_values`: collect the array numbers (`row[2]`) and motor
counts (`row[3]`); fail on duplicates (`len(list) != len(set)`), then on any
array number `>= MAX_NUMBER_OF_ARRAYS` or `< 0`, then on any motor count
`> MAX_NUMBER_OF_MOTORS` or `< 1`. -/
def lint_serial_port_values (serial_ports : List (Int × Int)) :
    Except LintError Unit :=
  let list_array_numbers := serial_ports.map Prod.fst
  let list_motor_numbers := serial_ports.map Prod.snd
  if list_array_numbers.length ≠ list_array_numbers.dedup.length then
    .error .duplicates
  else if list_array_numbers.any
      (fun value => (MAX_NUMBER_OF_ARRAYS : Int) ≤ value || value < 0) then
    .error .arrayRange
  else if list_motor_numbers.any
      (fun value => (MAX_NUMBER_OF_MOTORS : Int) < value || value < 1) then
    .error .motorRange
  else .ok ()

/-! ## Closing connections (`close_connections`, lines 414-441) -/

/-- What the slot `serial_ports[count][1]` can hold, together with the open
state of the underlying operating-system connection: a pyserial `Serial`
object, the bound method object produced by evaluating `serial.close`
without calling it (which captures the same still-open `Serial`), or a plain
string for an entry whose port was never opened. -/
inductive PySlot
  | portObj (isOpen : Bool)
  | closeMethod (isOpen : Bool)
  | rawAddress
deriving DecidableEq

/-- Python attribute access `x.close` (no call): on a `Serial` it returns the
bound method, leaving the connection untouched; on a bound-method object or
on the character sliced from a never-opened entry's address string it raises
`AttributeError` (`none`). -/
def pyGetCloseAttr : PySlot → Option PySlot
  | .portObj isOpen => some (.closeMethod isOpen)
  | .closeMethod _ => none
  | .rawAddress => none

/-- What actually calling `serial.close()` would do to the connection. -/
def pyCallClose : PySlot → PySlot
  | .portObj _ => .portObj false
  | .closeMethod _ => .closeMethod false
  | .rawAddress => .rawAddress

/-- Whether the operating-system connection behind a slot is open. -/
def slotUnderlyingOpen : PySlot → Bool
  | .portObj isOpen => isOpen
  | .closeMethod isOpen => isOpen
  | .rawAddress => false

/-- `close_connections`: for each entry, execute
`serial_ports[count][1] = serial_ports[count][1].close` — an attribute
access followed by an assignment, with the `AttributeError` of a never-opened
entry caught and the entry left as it was. -/
def close_connections (serial_ports : List (String × PySlot)) :
    List (String × PySlot) :=
  serial_ports.map fun entry =>
    match pyGetCloseAttr entry.2 with
    | some method => (entry.1, method)
    | none => entry

/-! ## Lemmas about the diff engine -/

theorem filterMap_ite_lt_of_forall {α : Type} (l : List Nat) (g : Nat → α)
    (mc : Nat) (h : ∀ x ∈ l, x < mc) :
    l.filterMap (fun c => if c < mc then some (g c) else none) = l.map g := by
  induction l with
  | nil => rfl
  | cons c rest ih =>
    simp only [List.filterMap_cons, List.map_cons,
      if_pos (h c (List.mem_cons_self c rest))]
    rw [ih fun x hx => h x (List.mem_cons_of_mem c hx)]

/-- With a well-formed grid row (`motorCount` within the row's width), the
per-slot loop visits exactly the slots `0 .. motorCount - 1`, in order. -/
theorem device_instructions_eq (desired_row current_row : List Int) (mc : Nat)
    (h : mc ≤ desired_row.length) :
    device_instructions desired_row current_row mc
      = (List.range mc).map (fun col =>
          (direction_of (current_row.getD col 0 - desired_row.getD col 0),
           (current_row.getD col 0 - desired_row.getD col 0).natAbs)) := by
  unfold device_instructions
  obtain ⟨k, hk⟩ : ∃ k, desired_row.length = mc + k :=
    ⟨desired_row.length - mc, by omega⟩
  rw [hk, List.range_add, List.filterMap_append,
    filterMap_ite_lt_of_forall _ _ _ (fun x hx => List.mem_range.mp hx)]
  have h2 : (List.map (fun x => mc + x) (List.range k)).filterMap
      (fun c => if c < mc then
        some (direction_of (current_row.getD c 0 - desired_row.getD c 0),
          (current_row.getD c 0 - desired_row.getD c 0).natAbs)
        else none) = [] := by
    rw [List.filterMap_eq_nil_iff]
    intro a ha
    obtain ⟨x, _, rfl⟩ := List.mem_map.mp ha
    rw [if_neg (by omega)]
  rw [h2, List.append_nil]

/-! ## C1, C2, C4 -/

/-- C1: For every pair of position grids `desired` and `current` and every
connected device, the instruction built for each motor slot `s` with
`s < motorCount` has magnitude `|current[arrayIndex][s] - desired[arrayIndex][s]|`,
and direction `Down` when `current - desired` is negative, `Up` when it is
positive, and `None` when it is zero. -/
theorem C1_diff_direction_and_magnitude
    (desired current : List (List Int)) (arrayIndex motorCount s : Nat)
    (hs : s < motorCount)
    (hm : motorCount ≤ (desired.getD arrayIndex []).length) :
    ∃ dir mag,
      (device_instructions (desired.getD arrayIndex [])
        (current.getD arrayIndex []) motorCount)[s]? = some (dir, mag)
      ∧ mag = ((current.getD arrayIndex []).getD s 0
          - (desired.getD arrayIndex []).getD s 0).natAbs
      ∧ ((current.getD arrayIndex []).getD s 0
          - (desired.getD arrayIndex []).getD s 0 < 0 → dir = Direction.Down)
      ∧ (0 < (current.getD arrayIndex []).getD s 0
          - (desired.getD arrayIndex []).getD s 0 → dir = Direction.Up)
      ∧ ((current.getD arrayIndex []).getD s 0
          - (desired.getD arrayIndex []).getD s 0 = 0 → dir = Direction.None) := by
  rw [device_instructions_eq _ _ _ hm]
  refine ⟨direction_of ((current.getD arrayIndex []).getD s 0
    - (desired.getD arrayIndex []).getD s 0), _, ?_, rfl, ?_, ?_, ?_⟩
  · rw [List.getElem?_map, List.getElem?_range hs]; rfl
  · intro h
    unfold direction_of
    rw [if_pos h]
  · intro h
    unfold direction_of
    rw [if_neg (by omega), if_pos (by omega)]
  · intro h
    unfold direction_of
    rw [if_neg (by omega), if_neg (by omega)]

theorem C1_witness :
    ∃ dir mag,
      (device_instructions ([[(3 : Int)]].getD 0 [])
        ([[(5 : Int)]].getD 0 []) 1)[0]? = some (dir, mag)
      ∧ mag = (([[(5 : Int)]].getD 0 []).getD 0 0
          - ([[(3 : Int)]].getD 0 []).getD 0 0).natAbs
      ∧ (([[(5 : Int)]].getD 0 []).getD 0 0
          - ([[(3 : Int)]].getD 0 []).getD 0 0 < 0 → dir = Direction.Down)
      ∧ (0 < ([[(5 : Int)]].getD 0 []).getD 0 0
          - ([[(3 : Int)]].getD 0 []).getD 0 0 → dir = Direction.Up)
      ∧ (([[(5 : Int)]].getD 0 []).getD 0 0
          - ([[(3 : Int)]].getD 0 []).getD 0 0 = 0 → dir = Direction.None) :=
  C1_diff_direction_and_magnitude [[(3 : Int)]] [[(5 : Int)]] 0 1 0
    (by decide) (by decide)

/-- C2 counterexample: on the spec's scenario (`MAX_ARRAYS = 4`,
`MAX_MOTORS = 10`, desired row of array 0 `[3,0,...]`, current row
`[5,0,...]`, device for array 0 with `motorCount = 2`) the code produces
`"<Up,2,None,0>"`, not the claimed `"<Down,2,None,0>"`: the difference
`current - desired = 5 - 3 = 2` is positive, which the source maps to
`"Up"`. -/
theorem C2_counterexample :
    commands_from_csv
      [[3, 0, 0, 0, 0, 0, 0, 0, 0, 0], List.replicate 10 0,
       List.replicate 10 0, List.replicate 10 0]
      [[5, 0, 0, 0, 0, 0, 0, 0, 0, 0], List.replicate 10 0,
       List.replicate 10 0, List.replicate 10 0]
      [(0, 2)] = "<Up,2,None,0>".toList
    ∧ "<Up,2,None,0>".toList ≠ "<Down,2,None,0>".toList :=
  ⟨by decide, by decide⟩

/-- C2 amended: in the spec's scenario the instruction text produced for the
device of array 0 is exactly `"<Up,2,None,0>"` (the slot-0 difference
`current - desired = 2` is positive, hence `Up`, magnitude `2`; slot 1 is
unchanged, hence `None,0`). -/
theorem C2_amended_scenario_text :
    commands_from_csv
      [[3, 0, 0, 0, 0, 0, 0, 0, 0, 0], List.replicate 10 0,
       List.replicate 10 0, List.replicate 10 0]
      [[5, 0, 0, 0, 0, 0, 0, 0, 0, 0], List.replicate 10 0,
       List.replicate 10 0, List.replicate 10 0]
      [(0, 2)] = "<Up,2,None,0>".toList := by
  decide

/-- C4: the reset path does build one `Up,100` instruction per motor slot of
every connected device, but the zero grid it persists beforehand is
transposed: `current_state_list_zero` has `MAX_NUMBER_OF_MOTORS` (= 10) rows
of `MAX_NUMBER_OF_ARRAYS` (= 4) columns each — not the `MAX_ARRAYS` rows ×
`MAX_MOTORS` columns the claim (and every other grid in the program)
requires.  The comprehension at line 198 swaps the two ranges. -/
theorem C4_reset_zero_grid_transposed :
    commands_from_reset [(0, 2), (1, 1)] = "<Up,100,Up,100>;<Up,100>".toList
    ∧ current_state_list_zero.length = 10
    ∧ current_state_list_zero.all (fun row => row.length == 4) = true
    ∧ MAX_NUMBER_OF_ARRAYS = 4
    ∧ MAX_NUMBER_OF_MOTORS = 10
    ∧ current_state_list_zero.length ≠ MAX_NUMBER_OF_ARRAYS := by
  refine ⟨by decide, by decide, by decide, rfl, rfl, by decide⟩

/-! ## Lemmas about the framed channel, and C5 -/

theorem recieve_skip_append (noise rest : List Nat)
    (hascii : ∀ b ∈ noise, b < 128) (h : START_MARKER ∉ noise) :
    recieve_skip (noise ++ START_MARKER :: rest) = .ok (START_MARKER, rest) := by
  induction noise with
  | nil => simp [recieve_skip, START_MARKER]
  | cons c cs ih =>
    have hc : c ≠ START_MARKER := fun e => h (e ▸ List.mem_cons_self c cs)
    have hlt : c < 128 := hascii c (List.mem_cons_self c cs)
    simp only [List.cons_append, recieve_skip]
    rw [if_pos hlt, if_neg hc]
    exact ih (fun b hb => hascii b (List.mem_cons_of_mem c hb))
      fun hm => h (List.mem_cons_of_mem c hm)

theorem frameBody_append : ∀ (payload : List Nat),
    (∀ b ∈ payload, b < 128) → END_MARKER ∉ payload →
    ∀ (acc : List Nat) (c : Nat), c ≠ END_MARKER →
    frameBody acc c (payload ++ [END_MARKER])
      = .ok (acc ++ (c :: payload).filter (· ≠ START_MARKER)) := by
  intro payload
  induction payload with
  | nil =>
    intro _ _ acc c hc
    by_cases hstart : c = START_MARKER
    · subst hstart
      simp [frameBody, START_MARKER, END_MARKER, List.filter_cons]
    · simp [frameBody, hc, hstart, List.filter_cons]
      decide
  | cons p ps ih =>
    intro hascii h acc c hc
    have hp : p ≠ END_MARKER := fun e => h (e ▸ List.mem_cons_self p ps)
    have hplt : p < 128 := hascii p (List.mem_cons_self p ps)
    have ih' := ih (fun b hb => hascii b (List.mem_cons_of_mem p hb))
      (fun hm => h (List.mem_cons_of_mem p hm))
    simp only [List.cons_append, frameBody]
    rw [if_neg hc, if_pos hplt]
    simp only [List.append_eq]
    rw [ih' _ p hp]
    by_cases hstart : c = START_MARKER
    · rw [if_pos hstart, hstart]
      simp [List.filter_cons]
    · rw [if_neg hstart]
      simp [List.filter_cons, hstart]

/-- C5 counterexample: the claim quantifies over every noise/payload byte
sequence, but each byte is individually decoded as UTF-8 (lines 366, 370,
376) and a lone byte `>= 0x80` is never valid UTF-8.  On the stream
`[0xC8, '<', 'A', '>']` the claim demands that the noise byte `0xC8` be
discarded and the frame `['A']` returned; the program instead raises an
uncaught `UnicodeDecodeError` before ever seeing the start marker. -/
theorem C5_counterexample :
    recieve_from_arduino [200, 60, 65, 62] = .error .decodeError
    ∧ (Except.error FrameError.decodeError : Except FrameError (List Nat))
        ≠ .ok [65] :=
  ⟨rfl, fun hcontra => nomatch hcontra⟩

/-- C5 amended: for every byte stream of the form noise, start marker,
payload, end marker whose noise and payload bytes all survive the per-byte
UTF-8 decode (ASCII, below `0x80`) — with the noise free of start markers
and the payload free of end markers — `recieve_from_arduino` returns the
payload with any embedded start markers dropped; no marker byte appears in
the result, and a payload containing no marker byte is recovered exactly.
A byte `>= 0x80` anywhere in the stream instead raises an uncaught
`UnicodeDecodeError`. -/
theorem C5_framing (noise payload : List Nat)
    (hnoise_ascii : ∀ b ∈ noise, b < 128)
    (hpayload_ascii : ∀ b ∈ payload, b < 128)
    (hnoise : START_MARKER ∉ noise) (hpayload : END_MARKER ∉ payload) :
    recieve_from_arduino (noise ++ START_MARKER :: (payload ++ [END_MARKER]))
      = .ok (payload.filter (· ≠ START_MARKER))
    ∧ START_MARKER ∉ payload.filter (· ≠ START_MARKER)
    ∧ END_MARKER ∉ payload.filter (· ≠ START_MARKER)
    ∧ (START_MARKER ∉ payload →
        recieve_from_arduino (noise ++ START_MARKER :: (payload ++ [END_MARKER]))
          = .ok payload) := by
  have hmain : recieve_from_arduino
      (noise ++ START_MARKER :: (payload ++ [END_MARKER]))
      = .ok (payload.filter (· ≠ START_MARKER)) := by
    unfold recieve_from_arduino
    rw [recieve_skip_append _ _ hnoise_ascii hnoise]
    show frameBody [] START_MARKER (payload ++ [END_MARKER])
      = .ok (payload.filter (· ≠ START_MARKER))
    rw [frameBody_append payload hpayload_ascii hpayload [] START_MARKER
      (by decide), List.nil_append, List.filter_cons]
    simp
  refine ⟨hmain, ?_, ?_, ?_⟩
  · intro hmem
    have h2 := (List.mem_filter.mp hmem).2
    simp at h2
  · intro hmem
    exact hpayload (List.mem_filter.mp hmem).1
  · intro hnostart
    rw [hmain, List.filter_eq_self.mpr]
    intro a ha
    simp only [decide_eq_true_eq, ne_eq]
    exact fun heq => hnostart (heq ▸ ha)

theorem C5_witness :
    (∀ b ∈ ([7, 62, 66] : List Nat), b < 128)
    ∧ (∀ b ∈ ([65, 60, 66] : List Nat), b < 128)
    ∧ START_MARKER ∉ ([7, 62, 66] : List Nat)
    ∧ END_MARKER ∉ ([65, 60, 66] : List Nat)
    ∧ (recieve_from_arduino
        (([7, 62, 66] : List Nat) ++ START_MARKER :: (([65, 60, 66] : List Nat) ++ [END_MARKER]))
        = .ok (([65, 60, 66] : List Nat).filter (· ≠ START_MARKER))
      ∧ START_MARKER ∉ ([65, 60, 66] : List Nat).filter (· ≠ START_MARKER)
      ∧ END_MARKER ∉ ([65, 60, 66] : List Nat).filter (· ≠ START_MARKER)
      ∧ (START_MARKER ∉ ([65, 60, 66] : List Nat) →
          recieve_from_arduino
            (([7, 62, 66] : List Nat) ++ START_MARKER :: (([65, 60, 66] : List Nat) ++ [END_MARKER]))
            = .ok [65, 60, 66])) :=
  ⟨by decide, by decide, by decide, by decide,
    C5_framing [7, 62, 66] [65, 60, 66] (by decide) (by decide)
      (by decide) (by decide)⟩

/-! ## Lemmas about the registry check, and C6, C7 -/

theorem length_eq_dedup_length_iff {α : Type} [DecidableEq α] (l : List α) :
    l.length = l.dedup.length ↔ l.Nodup := by
  constructor
  · intro h
    have heq : l.dedup = l := (List.dedup_sublist l).eq_of_length h.symm
    rw [← heq]
    exact l.nodup_dedup
  · intro h
    rw [List.dedup_eq_self.mpr h]

/-- C6: `lint_serial_port_values` succeeds exactly when the array numbers
are pairwise distinct, every array number lies in `[0, MAX_NUMBER_OF_ARRAYS)`
and every motor count lies in `[1, MAX_NUMBER_OF_MOTORS]`; and two devices
both reporting array number 2 are rejected with the duplicate error. -/
theorem C6_lint_iff (serial_ports : List (Int × Int)) :
    (lint_serial_port_values serial_ports = .ok () ↔
      ((serial_ports.map Prod.fst).Nodup
        ∧ (∀ a ∈ serial_ports.map Prod.fst, 0 ≤ a ∧ a < MAX_NUMBER_OF_ARRAYS)
        ∧ (∀ m ∈ serial_ports.map Prod.snd, 1 ≤ m ∧ m ≤ MAX_NUMBER_OF_MOTORS)))
    ∧ (∀ m1 m2 : Int,
        lint_serial_port_values [(2, m1), (2, m2)] = .error .duplicates) := by
  constructor
  · simp only [lint_serial_port_values]
    split_ifs with h1 h2 h3
    · refine iff_of_false (fun h => nomatch h) ?_
      rintro ⟨hnodup, -, -⟩
      exact h1 ((length_eq_dedup_length_iff _).mpr hnodup)
    · refine iff_of_false (fun h => nomatch h) ?_
      rintro ⟨-, harr, -⟩
      simp only [List.any_eq_true, Bool.or_eq_true, decide_eq_true_eq] at h2
      obtain ⟨a, ha, hp⟩ := h2
      have := harr a ha
      omega
    · refine iff_of_false (fun h => nomatch h) ?_
      rintro ⟨-, -, hmot⟩
      simp only [List.any_eq_true, Bool.or_eq_true, decide_eq_true_eq] at h3
      obtain ⟨m, hm, hp⟩ := h3
      have := hmot m hm
      omega
    · refine iff_of_true rfl ⟨?_, ?_, ?_⟩
      · exact (length_eq_dedup_length_iff _).mp (by omega)
      · intro a ha
        simp only [List.any_eq_true, Bool.or_eq_true, decide_eq_true_eq,
          not_exists, not_or] at h2
        have := h2 a
        simp only [ha, true_and] at this
        push_neg at this
        omega
      · intro m hm
        simp only [List.any_eq_true, Bool.or_eq_true, decide_eq_true_eq,
          not_exists, not_or] at h3
        have := h3 m
        simp only [hm, true_and] at this
        push_neg at this
        omega
  · intro m1 m2
    have hmap : List.map Prod.fst [((2 : Int), m1), ((2 : Int), m2)] = [2, 2] := rfl
    simp only [lint_serial_port_values, hmap]
    rw [if_pos (by decide)]

theorem C6_witness :
    lint_serial_port_values [((2 : Int), (3 : Int)), ((2 : Int), (4 : Int))]
      = .error .duplicates :=
  (C6_lint_iff []).2 3 4

/-- C7: `close_connections` closes nothing.  Line 420 evaluates the attribute
`serial_ports[count][1].close` and assigns the resulting bound-method object
back into the slot without ever calling it, so the open state of every
underlying connection is unchanged — contradicting the function's own
docstring ("Closes serial port(s)") and its per-port "CLOSED" message.  A
connect attempt that opened a port and then failed therefore leaves that
port open.  An actual call, `pyCallClose`, would have closed it. -/
theorem C7_close_connections_closes_nothing
    (serial_ports : List (String × PySlot)) :
    (close_connections serial_ports).map (fun entry => slotUnderlyingOpen entry.2)
      = serial_ports.map (fun entry => slotUnderlyingOpen entry.2)
    ∧ (close_connections [("/dev/ttyUSB0", .portObj true)]).map
        (fun entry => slotUnderlyingOpen entry.2) = [true]
    ∧ pyCallClose (.portObj true) = .portObj false := by
  refine ⟨?_, by decide, rfl⟩
  unfold close_connections
  rw [List.map_map]
  refine List.map_congr_left fun entry _ => ?_
  obtain ⟨name, slot⟩ := entry
  cases slot <;> rfl

/-! ## Lemmas about the handshake extraction, and C3 -/

theorem isDigitByte_not_space {b : Nat} (h : isDigitByte b = true) :
    isSpaceByte b = false := by
  simp only [isDigitByte, Bool.and_eq_true, decide_eq_true_eq] at h
  simp only [isSpaceByte, Bool.or_eq_false_iff, decide_eq_false_iff_not]
  omega

theorem isOtherByte_not_digit {b : Nat} (h : isOtherByte b = true) :
    isDigitByte b = false := by
  simp only [isOtherByte, Bool.and_eq_true, Bool.not_eq_true'] at h
  exact h.1

theorem isOtherByte_of_classes {b : Nat} (hd : isDigitByte b = false)
    (hs : isSpaceByte b = false) : isOtherByte b = true := by
  simp [isOtherByte, hd, hs]
theorem sepOK_cons_eq (a b : Nat) (rest : List Nat) :
    sepOK (a :: b :: rest)
      = (!(isDigitByte a && isOtherByte b)
        && (!(isOtherByte a && isDigitByte b) && sepOK (b :: rest))) := by
  simp only [sepOK, Bool.and_assoc]

theorem sepOK_tail {a : Nat} {s : List Nat} (h : sepOK (a :: s) = true) :
    sepOK s = true := by
  cases s with
  | nil => rfl
  | cons b rest =>
    rw [sepOK_cons_eq, Bool.and_eq_true, Bool.and_eq_true] at h
    exact h.2.2

theorem sepOK_adj {a b : Nat} {rest : List Nat}
    (h : sepOK (a :: b :: rest) = true) :
    (isDigitByte a = true → isOtherByte b = false)
    ∧ (isOtherByte a = true → isDigitByte b = false) := by
  rw [sepOK_cons_eq, Bool.and_eq_true, Bool.and_eq_true] at h
  obtain ⟨h1, h2, -⟩ := h
  constructor
  · intro ha
    cases hob : isOtherByte b
    · rfl
    · rw [ha, hob] at h1
      simp at h1
  · intro ha
    cases hdb : isDigitByte b
    · rfl
    · rw [ha, hdb] at h2
      simp at h2

theorem pyTokenIsDigit_reverse_cons (a : Nat) (acc : List Nat) :
    pyTokenIsDigit ((a :: acc).reverse) = (a :: acc).all isDigitByte := by
  unfold pyTokenIsDigit
  rw [List.all_reverse]
  cases hrev : (a :: acc).reverse with
  | nil => exact absurd hrev (by simp)
  | cons x xs => simp [List.isEmpty]

/-- On a payload where digit runs only abut whitespace (or the string ends),
the maximal digit runs are exactly the whitespace-split tokens that pass
`isdigit()`.  The three conjuncts track the scanner state: between tokens,
inside an all-digit token, inside a digit-free token. -/
theorem digitRuns_eq_digit_tokens (s : List Nat) :
    (sepOK s = true →
      digitRunsAux s [] = (pySplitAux s []).filter pyTokenIsDigit)
    ∧ (∀ a acc, (a :: acc).all isDigitByte = true → sepOK (a :: s) = true →
      digitRunsAux s (a :: acc) = (pySplitAux s (a :: acc)).filter pyTokenIsDigit)
    ∧ (∀ a acc, (a :: acc).all isOtherByte = true → sepOK (a :: s) = true →
      digitRunsAux s [] = (pySplitAux s (a :: acc)).filter pyTokenIsDigit) := by
  induction s with
  | nil =>
    refine ⟨fun _ => rfl, fun a acc hall _ => ?_, fun a acc hall _ => ?_⟩
    · rw [show digitRunsAux [] (a :: acc) = [(a :: acc).reverse] from by
          simp [digitRunsAux],
        show pySplitAux [] (a :: acc) = [(a :: acc).reverse] from by
          simp [pySplitAux],
        List.filter_cons, pyTokenIsDigit_reverse_cons, hall]
      simp
    · have ha : isDigitByte a = false :=
        isOtherByte_not_digit (by
          simp only [List.all_cons, Bool.and_eq_true] at hall
          exact hall.1)
      have hallf : (a :: acc).all isDigitByte = false := by
        rw [List.all_cons, ha, Bool.false_and]
      rw [show digitRunsAux [] ([] : List Nat) = [] from rfl,
        show pySplitAux [] (a :: acc) = [(a :: acc).reverse] from by
          simp [pySplitAux],
        List.filter_cons, pyTokenIsDigit_reverse_cons, hallf]
      simp
  | cons c rest ih =>
    obtain ⟨ih1, ih2, ih3⟩ := ih
    refine ⟨fun h => ?_, fun a acc hall h => ?_, fun a acc hall h => ?_⟩
    · -- between tokens
      by_cases hd : isDigitByte c = true
      · have hs := isDigitByte_not_space hd
        rw [show digitRunsAux (c :: rest) [] = digitRunsAux rest [c] from by
            simp [digitRunsAux, hd],
          show pySplitAux (c :: rest) [] = pySplitAux rest [c] from by
            simp [pySplitAux, hs]]
        exact ih2 c [] (by simp [hd]) h
      · by_cases hs : isSpaceByte c = true
        · rw [show digitRunsAux (c :: rest) [] = digitRunsAux rest [] from by
              simp [digitRunsAux, hd],
            show pySplitAux (c :: rest) [] = pySplitAux rest [] from by
              simp [pySplitAux, hs]]
          exact ih1 (sepOK_tail h)
        · rw [show digitRunsAux (c :: rest) [] = digitRunsAux rest [] from by
              simp [digitRunsAux, hd],
            show pySplitAux (c :: rest) [] = pySplitAux rest [c] from by
              simp [pySplitAux, hs]]
          exact ih3 c []
            (by simp [isOtherByte_of_classes
              (Bool.eq_false_iff.mpr hd) (Bool.eq_false_iff.mpr hs)]) h
    · -- inside an all-digit token
      have hadig : isDigitByte a = true := by
        simp only [List.all_cons, Bool.and_eq_true] at hall
        exact hall.1
      by_cases hd : isDigitByte c = true
      · have hs := isDigitByte_not_space hd
        rw [show digitRunsAux (c :: rest) (a :: acc)
              = digitRunsAux rest (c :: a :: acc) from by
            simp [digitRunsAux, hd],
          show pySplitAux (c :: rest) (a :: acc)
              = pySplitAux rest (c :: a :: acc) from by
            simp [pySplitAux, hs]]
        refine ih2 c (a :: acc) ?_ (sepOK_tail h)
        rw [List.all_cons, hd, Bool.true_and]
        exact hall
      · have hother : isOtherByte c = false := (sepOK_adj h).1 hadig
        have hs : isSpaceByte c = true := by
          by_contra hs
          rw [isOtherByte_of_classes (Bool.eq_false_iff.mpr hd)
            (Bool.eq_false_iff.mpr hs)] at hother
          cases hother
        rw [show digitRunsAux (c :: rest) (a :: acc)
              = (a :: acc).reverse :: digitRunsAux rest [] from by
            simp [digitRunsAux, hd],
          show pySplitAux (c :: rest) (a :: acc)
              = (a :: acc).reverse :: pySplitAux rest [] from by
            simp [pySplitAux, hs],
          List.filter_cons, pyTokenIsDigit_reverse_cons, hall]
        rw [ih1 (sepOK_tail (sepOK_tail h))]
        simp
    · -- inside a digit-free token
      have haoth : isOtherByte a = true := by
        simp only [List.all_cons, Bool.and_eq_true] at hall
        exact hall.1
      have hd : isDigitByte c = false := (sepOK_adj h).2 haoth
      have hallf : (a :: acc).all isDigitByte = false := by
        rw [List.all_cons, isOtherByte_not_digit haoth, Bool.false_and]
      by_cases hs : isSpaceByte c = true
      · rw [show digitRunsAux (c :: rest) [] = digitRunsAux rest [] from by
            simp [digitRunsAux, hd],
          show pySplitAux (c :: rest) (a :: acc)
              = (a :: acc).reverse :: pySplitAux rest [] from by
            simp [pySplitAux, hs],
          List.filter_cons, pyTokenIsDigit_reverse_cons, hallf]
        rw [ih1 (sepOK_tail (sepOK_tail h))]
        simp
      · rw [show digitRunsAux (c :: rest) [] = digitRunsAux rest [] from by
            simp [digitRunsAux, hd],
          show pySplitAux (c :: rest) (a :: acc)
              = pySplitAux rest (c :: a :: acc) from by
            simp [pySplitAux, hs]]
        refine ih3 c (a :: acc) ?_ (sepOK_tail h)
        rw [List.all_cons, isOtherByte_of_classes hd (Bool.eq_false_iff.mpr hs),
          Bool.true_and]
        exact hall

/-- C3 counterexample: in the payload `"Arduino is ready x1 2 3"` the maximal
digit runs are `1, 2, 3`, but line 356 splits on whitespace and keeps only
the all-digit tokens, so the run `1` inside the token `x1` is skipped: the
code extracts `[2, 3]` and stores `arrayIndex = 2`, `motorCount = 3`,
whereas the claim's maximal-run reading demands first integer `1` and
second `2`. -/
theorem C3_counterexample :
    extract_ints ("Arduino is ready x1 2 3".toList.map Char.toNat) = [2, 3]
    ∧ spec_extract_ints ("Arduino is ready x1 2 3".toList.map Char.toNat)
        = [1, 2, 3]
    ∧ extract_ints ("Arduino is ready x1 2 3".toList.map Char.toNat)
        ≠ spec_extract_ints ("Arduino is ready x1 2 3".toList.map Char.toNat)
    ∧ wait_for_arduino_connection
        ["Arduino is ready x1 2 3".toList.map Char.toNat] = .ok (2, 3) :=
  ⟨by decide, by decide, by decide, rfl⟩

/-- C3 amended: the integers extracted from the sentinel payload are the
whitespace-delimited tokens consisting entirely of decimal digits, in order
of appearance — which coincide with the maximal digit runs exactly when
every digit in the payload abuts only whitespace (`sepOK`), as in the
reference payload format; the first becomes `arrayIndex`, the second
`motorCount`, and a payload yielding fewer than two integers is an
invalid-identity (`IndexError`) failure distinct from the timeout failure. -/
theorem C3_amended_extraction (frames : List (List Nat)) (msg : List Nat)
    (hfound : findReadyMsg frames = some msg)
    (hsep : sepOK msg = true) :
    spec_extract_ints msg = extract_ints msg
    ∧ (∀ a m rest2, extract_ints msg = a :: m :: rest2 →
        wait_for_arduino_connection frames = .ok (a, m))
    ∧ ((extract_ints msg).length < 2 →
        wait_for_arduino_connection frames = .error .invalidIdentity)
    ∧ ConnectError.invalidIdentity ≠ ConnectError.timeout := by
  refine ⟨?_, ?_, ?_, by decide⟩
  · unfold spec_extract_ints extract_ints digitRuns pySplit
    rw [(digitRuns_eq_digit_tokens msg).1 hsep]
  · intro a m rest2 hex
    unfold wait_for_arduino_connection
    rw [hfound]
    dsimp only
    rw [hex]
  · intro hlen
    unfold wait_for_arduino_connection
    rw [hfound]
    dsimp only
    rcases hex : extract_ints msg with _ | ⟨x, _ | ⟨y, tail⟩⟩
    · rfl
    · rfl
    · exfalso
      rw [hex] at hlen
      simp only [List.length_cons] at hlen
      omega

theorem C3_witness :
    spec_extract_ints ("Arduino is ready 1 5".toList.map Char.toNat)
      = extract_ints ("Arduino is ready 1 5".toList.map Char.toNat)
    ∧ (∀ a m rest2,
        extract_ints ("Arduino is ready 1 5".toList.map Char.toNat)
          = a :: m :: rest2 →
        wait_for_arduino_connection
          ["Arduino is ready 1 5".toList.map Char.toNat] = .ok (a, m))
    ∧ ((extract_ints ("Arduino is ready 1 5".toList.map Char.toNat)).length < 2 →
        wait_for_arduino_connection
          ["Arduino is ready 1 5".toList.map Char.toNat]
          = .error .invalidIdentity)
    ∧ ConnectError.invalidIdentity ≠ ConnectError.timeout :=
  C3_amended_extraction ["Arduino is ready 1 5".toList.map Char.toNat]
    ("Arduino is ready 1 5".toList.map Char.toNat) rfl (by decide)

/-! ## Lemmas about the command string's segment structure, for C9, C10 -/

theorem dropLast_append_ne {α : Type} (a b : List α) (hb : b ≠ []) :
    (a ++ b).dropLast = a ++ b.dropLast := by
  cases b with
  | nil => cases hb rfl
  | cons x xs => exact List.dropLast_append_cons

theorem splitSemi_no_semi (a : List Char) (h : ';' ∉ a) : splitSemi a = [a] := by
  induction a with
  | nil => rfl
  | cons c cs ih =>
    have hc : c ≠ ';' := fun e => h (e ▸ List.mem_cons_self c cs)
    have ih' := ih fun m => h (List.mem_cons_of_mem c m)
    simp [splitSemi, hc, ih']

theorem splitSemi_append (a b : List Char) (h : ';' ∉ a) :
    splitSemi (a ++ ';' :: b) = a :: splitSemi b := by
  induction a with
  | nil => simp [splitSemi]
  | cons c cs ih =>
    have hc : c ≠ ';' := fun e => h (e ▸ List.mem_cons_self c cs)
    have ih' := ih fun m => h (List.mem_cons_of_mem c m)
    simp [splitSemi, hc, ih']

theorem splitSemi_flatten_bodies (bodies : List (List Char)) (hne : bodies ≠ [])
    (hmem : ∀ b ∈ bodies, ';' ∉ b) :
    splitSemi (((bodies.map (· ++ [';'])).flatten).dropLast) = bodies := by
  induction bodies with
  | nil => cases hne rfl
  | cons b bs ih =>
    cases bs with
    | nil =>
      simp only [List.map_cons, List.map_nil, List.flatten_cons,
        List.flatten_nil, List.append_nil, List.dropLast_concat]
      exact splitSemi_no_semi b (hmem b (List.mem_cons_self b []))
    | cons b2 bs2 =>
      have hrest : ((b2 :: bs2).map (· ++ [';'])).flatten ≠ [] := by
        simp
      rw [List.map_cons, List.flatten_cons, dropLast_append_ne _ _ hrest]
      have hstep : (b ++ [';']) ++ (((b2 :: bs2).map (· ++ [';'])).flatten).dropLast
          = b ++ ';' :: (((b2 :: bs2).map (· ++ [';'])).flatten).dropLast := by
        simp
      rw [hstep, splitSemi_append _ _ (hmem b (List.mem_cons_self b _))]
      rw [ih (List.cons_ne_nil b2 bs2)
        fun x hx => hmem x (List.mem_cons_of_mem b hx)]

theorem digitChar_ne_semi (n : Nat) : digitChar n ≠ ';' := by
  unfold digitChar
  split <;> decide

theorem natCharsCore_ne_semi : ∀ fuel n : Nat, ∀ c ∈ natCharsCore fuel n, c ≠ ';' := by
  intro fuel
  induction fuel with
  | zero => intro n c hc; cases hc
  | succ f ih =>
    intro n c hc
    unfold natCharsCore at hc
    by_cases h10 : n < 10
    · rw [if_pos h10, List.mem_singleton] at hc
      exact hc ▸ digitChar_ne_semi n
    · rw [if_neg h10] at hc
      rcases List.mem_append.mp hc with hc | hc
      · exact ih _ c hc
      · rw [List.mem_singleton] at hc
        exact hc ▸ digitChar_ne_semi _

theorem semi_not_mem_instruction_chars (ins : Direction × Nat) :
    ';' ∉ instruction_chars ins := by
  intro hmem
  unfold instruction_chars at hmem
  rcases List.mem_append.mp hmem with h | h
  · cases hdir : ins.1 <;> rw [hdir] at h <;> simp [direction_chars] at h
  · rcases List.mem_cons.mp h with h | h
    · cases h
    · rcases List.mem_append.mp h with h | h
      · exact natCharsCore_ne_semi _ _ _ h rfl
      · rw [List.mem_singleton] at h
        cases h

theorem semi_not_mem_device_body (desired_row current_row : List Int)
    (motorCount : Nat) : ';' ∉ device_body desired_row current_row motorCount := by
  intro hmem
  unfold device_body at hmem
  rcases List.mem_append.mp hmem with h | h
  · have h' := (List.dropLast_sublist _).mem h
    rcases List.mem_cons.mp h' with h' | h'
    · cases h'
    · obtain ⟨l, hl, hcl⟩ := List.mem_flatten.mp h'
      obtain ⟨ins, -, rfl⟩ := List.mem_map.mp hl
      exact semi_not_mem_instruction_chars ins hcl
  · rw [List.mem_singleton] at h
    cases h

theorem foldl_device_segments (desired current : List (List Int))
    (qs : List (Nat × Nat)) :
    ∀ acc : List Char,
    qs.foldl (fun command_string p =>
      (command_string ++ '<' :: ((device_instructions (desired.getD p.1 [])
        (current.getD p.1 []) p.2).map instruction_chars).flatten).dropLast
        ++ ('>' :: ';' :: [])) acc
      = acc ++ (qs.map (fun p => device_body (desired.getD p.1 [])
          (current.getD p.1 []) p.2 ++ [';'])).flatten := by
  induction qs with
  | nil => intro acc; simp
  | cons p ps ih =>
    intro acc
    rw [List.foldl_cons, ih, List.map_cons, List.flatten_cons]
    unfold device_body
    rw [List.dropLast_append_cons]
    simp

/-- The command string `commands_from_csv` builds is the `";"`-joined
concatenation of the per-device segments. -/
theorem commands_from_csv_flat (desired current : List (List Int))
    (serial_ports : List (Nat × Nat)) :
    commands_from_csv desired current serial_ports
      = ((serial_ports.map (fun p => device_body (desired.getD p.1 [])
          (current.getD p.1 []) p.2 ++ [';'])).flatten).dropLast := by
  show (serial_ports.foldl (fun command_string p =>
      (command_string ++ '<' :: ((device_instructions (desired.getD p.1 [])
        (current.getD p.1 []) p.2).map instruction_chars).flatten).dropLast
        ++ ('>' :: ';' :: [])) []).dropLast = _
  rw [foldl_device_segments desired current serial_ports []]
  rw [List.nil_append]

/-- Splitting the built command string on `";"` recovers exactly the
per-device segments, in registry order. -/
theorem splitSemi_commands_from_csv (desired current : List (List Int))
    (serial_ports : List (Nat × Nat)) (hne : serial_ports ≠ []) :
    splitSemi (commands_from_csv desired current serial_ports)
      = serial_ports.map (fun p => device_body (desired.getD p.1 [])
          (current.getD p.1 []) p.2) := by
  rw [commands_from_csv_flat]
  rw [show serial_ports.map (fun p => device_body (desired.getD p.1 [])
        (current.getD p.1 []) p.2 ++ [';'])
      = (serial_ports.map (fun p => device_body (desired.getD p.1 [])
        (current.getD p.1 []) p.2)).map (· ++ [';']) from by
    rw [List.map_map]
    rfl]
  apply splitSemi_flatten_bodies
  · rw [ne_eq, List.map_eq_nil_iff]
    exact hne
  · intro b hb
    obtain ⟨p, -, rfl⟩ := List.mem_map.mp hb
    exact semi_not_mem_device_body _ _ _

/-! ## C10 -/

theorem device_body_congr (desired_row1 current_row1 desired_row2 current_row2 :
    List Int) (motorCount : Nat)
    (hl1 : motorCount ≤ desired_row1.length)
    (hl2 : motorCount ≤ desired_row2.length)
    (hd : ∀ s < motorCount, desired_row1.getD s 0 = desired_row2.getD s 0)
    (hc : ∀ s < motorCount, current_row1.getD s 0 = current_row2.getD s 0) :
    device_body desired_row1 current_row1 motorCount
      = device_body desired_row2 current_row2 motorCount := by
  unfold device_body
  rw [device_instructions_eq _ _ _ hl1, device_instructions_eq _ _ _ hl2]
  have hmap : List.map (fun col =>
        (direction_of (current_row1.getD col 0 - desired_row1.getD col 0),
         (current_row1.getD col 0 - desired_row1.getD col 0).natAbs))
      (List.range motorCount)
      = List.map (fun col =>
        (direction_of (current_row2.getD col 0 - desired_row2.getD col 0),
         (current_row2.getD col 0 - desired_row2.getD col 0).natAbs))
      (List.range motorCount) := by
    apply List.map_congr_left
    intro s hs
    have hs' := List.mem_range.mp hs
    rw [hd s hs', hc s hs']
  rw [hmap]

/-- C10: for a fixed device set, the instruction segment the CSV diff
produces for the device at registry position `i` (with identity
`(arrayIndex, motorCount)`) depends only on the cells of row `arrayIndex`
at columns `0 .. motorCount - 1` of the two well-shaped grids: grid pairs
agreeing there yield the identical segment, whatever the other rows and
columns hold. -/
theorem C10_segment_depends_only_on_window
    (desired1 current1 desired2 current2 : List (List Int))
    (serial_ports : List (Nat × Nat)) (i arrayIndex motorCount : Nat)
    (hport : serial_ports[i]? = some (arrayIndex, motorCount))
    (hl1 : (desired1.getD arrayIndex []).length = MAX_NUMBER_OF_MOTORS)
    (hl2 : (desired2.getD arrayIndex []).length = MAX_NUMBER_OF_MOTORS)
    (hm : motorCount ≤ MAX_NUMBER_OF_MOTORS)
    (hd : ∀ s < motorCount, (desired1.getD arrayIndex []).getD s 0
        = (desired2.getD arrayIndex []).getD s 0)
    (hc : ∀ s < motorCount, (current1.getD arrayIndex []).getD s 0
        = (current2.getD arrayIndex []).getD s 0) :
    (splitSemi (commands_from_csv desired1 current1 serial_ports))[i]?
      = (splitSemi (commands_from_csv desired2 current2 serial_ports))[i]?
    ∧ (splitSemi (commands_from_csv desired1 current1 serial_ports))[i]?
      = some (device_body (desired1.getD arrayIndex [])
          (current1.getD arrayIndex []) motorCount) := by
  have hne : serial_ports ≠ [] := by
    intro he
    rw [he] at hport
    simp at hport
  have h1 := splitSemi_commands_from_csv desired1 current1 serial_ports hne
  have h2 := splitSemi_commands_from_csv desired2 current2 serial_ports hne
  have hb := device_body_congr (desired1.getD arrayIndex [])
    (current1.getD arrayIndex []) (desired2.getD arrayIndex [])
    (current2.getD arrayIndex []) motorCount
    (by rw [hl1]; exact hm) (by rw [hl2]; exact hm)
    hd hc
  constructor
  · rw [h1, h2, List.getElem?_map, List.getElem?_map, hport]
    simp only [Option.map_some']
    rw [hb]
  · rw [h1, List.getElem?_map, hport]
    rfl

theorem C10_witness :
    ([((0 : Nat), (1 : Nat))] : List (Nat × Nat))[0]? = some (0, 1)
    ∧ (([[1, 2, 2, 2, 2, 2, 2, 2, 2, 2]] : List (List Int)).getD 0 []).length
        = MAX_NUMBER_OF_MOTORS
    ∧ (([[1, 0, 0, 0, 0, 0, 0, 0, 0, 0]] : List (List Int)).getD 0 []).length
        = MAX_NUMBER_OF_MOTORS
    ∧ ((splitSemi (commands_from_csv [[1, 2, 2, 2, 2, 2, 2, 2, 2, 2]]
          [[7, 9, 9, 9, 9, 9, 9, 9, 9, 9]] [((0 : Nat), (1 : Nat))]))[0]?
        = (splitSemi (commands_from_csv [[1, 0, 0, 0, 0, 0, 0, 0, 0, 0]]
          [[7, 0, 0, 0, 0, 0, 0, 0, 0, 0]] [((0 : Nat), (1 : Nat))]))[0]?
      ∧ (splitSemi (commands_from_csv [[1, 2, 2, 2, 2, 2, 2, 2, 2, 2]]
          [[7, 9, 9, 9, 9, 9, 9, 9, 9, 9]] [((0 : Nat), (1 : Nat))]))[0]?
        = some (device_body (([[1, 2, 2, 2, 2, 2, 2, 2, 2, 2]] :
            List (List Int)).getD 0 [])
          (([[7, 9, 9, 9, 9, 9, 9, 9, 9, 9]] : List (List Int)).getD 0 []) 1)) :=
  ⟨by decide, by decide, by decide,
    C10_segment_depends_only_on_window
      [[1, 2, 2, 2, 2, 2, 2, 2, 2, 2]] [[7, 9, 9, 9, 9, 9, 9, 9, 9, 9]]
      [[1, 0, 0, 0, 0, 0, 0, 0, 0, 0]] [[7, 0, 0, 0, 0, 0, 0, 0, 0, 0]]
      [((0 : Nat), (1 : Nat))] 0 0 1 (by decide) (by decide) (by decide)
      (by decide) (by decide) (by decide)⟩

/-! ## C9 -/

/-- C9 counterexample: with two connected devices, the manually entered
command text `"x"` splits into one `";"`-segment, so `execute_commands`
spawns exactly one worker — not one per device as the claim requires. -/
theorem C9_counterexample :
    execute_commands 2 ['x'] = .ok [(0, ['x'])]
    ∧ ([((0 : Nat), ['x'])]).length = 1
    ∧ (1 : Nat) ≠ 2 :=
  ⟨rfl, rfl, by decide⟩

/-- C9 amended: the number of workers spawned equals the number of
`";"`-segments of the command text, not the number of connected devices;
when the segment count exceeds the device count the pre-sized `threads`
list is indexed out of bounds (`IndexError`), and when dispatch succeeds
every worker's thread-slot/device index is below the device count.  On the
CSV path the built text has exactly one segment per device, so there the
worker count does equal the device count. -/
theorem C9_amended_worker_count :
    (∀ (serial_ports_length : Nat) (cmd : List Char)
        (workers : List (Nat × List Char)),
      execute_commands serial_ports_length cmd = .ok workers →
        workers.length = (splitSemi cmd).length
        ∧ (splitSemi cmd).length ≤ serial_ports_length
        ∧ ∀ w ∈ workers, w.1 < serial_ports_length)
    ∧ (∀ (serial_ports_length : Nat) (cmd : List Char),
        serial_ports_length < (splitSemi cmd).length →
        execute_commands serial_ports_length cmd = .error ())
    ∧ (∀ (desired current : List (List Int)) (serial_ports : List (Nat × Nat)),
        serial_ports ≠ [] →
        ∃ workers, execute_commands serial_ports.length
            (commands_from_csv desired current serial_ports) = .ok workers
          ∧ workers.length = serial_ports.length
          ∧ ∀ w ∈ workers, w.1 < serial_ports.length) := by
  have hok : ∀ (n : Nat) (cmd : List Char) (workers : List (Nat × List Char)),
      execute_commands n cmd = .ok workers →
        workers.length = (splitSemi cmd).length
        ∧ (splitSemi cmd).length ≤ n
        ∧ ∀ w ∈ workers, w.1 < n := by
    intro n cmd workers h
    unfold execute_commands at h
    by_cases hlt : n < (splitSemi cmd).length
    · rw [if_pos hlt] at h
      cases h
    · rw [if_neg hlt] at h
      have hw : workers = (splitSemi cmd).enum := by
        cases h
        rfl
      subst hw
      refine ⟨List.enum_length, by omega, ?_⟩
      intro w hw
      obtain ⟨i, t⟩ := w
      have := List.mem_enumFrom (by simpa [List.enum] using hw)
      omega
  refine ⟨hok, ?_, ?_⟩
  · intro n cmd hlt
    unfold execute_commands
    rw [if_pos hlt]
  · intro desired current serial_ports hne
    have hsplit := splitSemi_commands_from_csv desired current serial_ports hne
    have hlen : (splitSemi (commands_from_csv desired current
        serial_ports)).length = serial_ports.length := by
      rw [hsplit, List.length_map]
    refine ⟨(splitSemi (commands_from_csv desired current serial_ports)).enum,
      ?_, ?_, ?_⟩
    · unfold execute_commands
      rw [if_neg (by omega)]
    · rw [List.enum_length, hlen]
    · intro w hw
      obtain ⟨i, t⟩ := w
      have := List.mem_enumFrom (by simpa [List.enum] using hw)
      omega

theorem C9_witness :
    ∃ workers, execute_commands ([((0 : Nat), (1 : Nat))] :
        List (Nat × Nat)).length
        (commands_from_csv [[(3 : Int)]] [[(5 : Int)]]
          [((0 : Nat), (1 : Nat))]) = .ok workers
      ∧ workers.length = ([((0 : Nat), (1 : Nat))] : List (Nat × Nat)).length
      ∧ ∀ w ∈ workers, w.1 < ([((0 : Nat), (1 : Nat))] :
          List (Nat × Nat)).length :=
  C9_amended_worker_count.2.2 [[(3 : Int)]] [[(5 : Int)]]
    [((0 : Nat), (1 : Nat))] (by decide)
